import Mathlib

/-!
Verification development for the stranger-talk signaling server.

The definitions below are a shallow embedding of the two classes in
src/app/services/QueueManager.js: the QueueManager (waiting queue, room
registry and statistics stored in Redis) and the SignalingService (the
Socket.io event handlers built on top of it).

Modelling decisions, all taken from the source:

The Redis sorted set queue:waiting is modelled as a list of QueueEntry
kept sorted by (score, member) where the score is the enqueue timestamp
passed to zadd and the member is the JSON string
\x7b"userId":...,"timestamp":...\x7d produced by JSON.stringify.  Redis
orders members with equal scores lexicographically by the member string,
which serializeEntry reproduces; zinsert places a new member at its rank.
The string keys room:data:<id> and user:room:<id> are modelled as
association lists with Redis SET/SETEX overwrite semantics (setKey) and
DEL semantics (delKey); the set rooms:active as a list with SADD
semantics (saddStr); the stats:global hash field totalRooms as a Nat.

Calls to Date.now() are modelled by an explicit timestamp argument
(Date.now() is non-decreasing but may return the same millisecond twice,
so no monotonicity is built in).  The uuidv4() room-id generator is
modelled by a supply function together with a counter in the state; the
uniqueness of generated ids, which the source assumes from 128-bit
randomness, becomes an injectivity hypothesis on the supply.

The setTimeout scheduled by handleSkipPartner is modelled by the pending
field: an outstanding callback for a user.  The source never calls
clearTimeout, so no event removes a pending entry except the timer
firing itself.

PostgreSQL persistence (DatabaseService) is fire-and-forget in the
source and out of scope; Socket.io join/leave room bookkeeping is not
used for message delivery (the source emits to socket ids directly) and
is not modelled.  Emitted frames are collected in a list.
-/

namespace StrangerTalk

/-- One member of the queue:waiting sorted set, as written by addToQueue. -/
structure QueueEntry where
  userId : String
  timestamp : Nat
deriving Repr, DecidableEq

/-- The JSON payload stored under room:data:<roomId> by createRoom. -/
structure RoomData where
  roomId : String
  users : List String
  createdAt : Nat
  status : String
deriving Repr, DecidableEq

/-- A frame emitted to a client socket, tagged with the destination socket id dst. -/
inductive Frame where
  | waiting (dst msg : String)
  | queueUpdate (dst : String) (position : Nat)
  | matched (dst roomId : String) (isInitiator : Bool)
  | offerF (dst payload roomId : String)
  | answerF (dst payload roomId : String)
  | iceF (dst payload roomId : String)
  | partnerLeft (dst : String)
  | partnerDisconnected (dst : String)
  | leftChat (dst : String)
  | errorF (dst msg : String)
deriving Repr, DecidableEq

/-- The shared Redis state (plus the modelled uuid supply and the
outstanding skip-partner timers). -/
structure ServerState where
  queue : List QueueEntry
  roomData : List (String × RoomData)
  userRoom : List (String × String)
  activeRooms : List String
  totalRooms : Nat
  pending : List String
  supply : Nat → String
  nextId : Nat

/-- The member string JSON.stringify builds in addToQueue. -/
def serializeEntry (e : QueueEntry) : String :=
  "\x7b\"userId\":\"" ++ e.userId ++ "\",\"timestamp\":" ++ Nat.repr e.timestamp ++ "\x7d"

/-- Lexicographic order on character lists; on the member strings below
it coincides with the byte-wise comparison Redis applies to members with
equal scores. -/
def charsLt : List Char → List Char → Bool
  | [], [] => false
  | [], _ :: _ => true
  | _ :: _, [] => false
  | a :: as, b :: bs =>
      if a.toNat < b.toNat then true
      else if b.toNat < a.toNat then false
      else charsLt as bs

/-- Lexicographic order on the serialized members. -/
def memberLt (x y : QueueEntry) : Bool :=
  charsLt (serializeEntry x).data (serializeEntry y).data

/-- Redis sorted-set ordering: by score (the timestamp zadd receives),
then lexicographically by the member string. -/
def entryLtB (x y : QueueEntry) : Bool :=
  x.timestamp < y.timestamp ||
    (x.timestamp == y.timestamp && memberLt x y)

/-- Insert a member at its rank in the sorted set; adding an existing
member (same userId and timestamp, hence same member string and score)
leaves the set unchanged. -/
def zinsert (e : QueueEntry) : List QueueEntry → List QueueEntry
  | [] => [e]
  | x :: xs => if e = x then x :: xs
               else if entryLtB e x then e :: x :: xs
               else x :: zinsert e xs

/-- Remove the first entry for a user in rank order, as the zrange scan
loop of removeFromQueue does; none when absent. -/
def removeFirstUser : List QueueEntry → String → Option (List QueueEntry)
  | [], _ => none
  | e :: t, u => if e.userId == u then some t
                 else (removeFirstUser t u).map (e :: ·)

/-- Redis SET/SETEX on a string key: the key is overwritten. -/
def setKey (l : List (String × α)) (k : String) (v : α) : List (String × α) :=
  l.filter (fun p => p.1 != k) ++ [(k, v)]

/-- Redis DEL on a string key. -/
def delKey (l : List (String × α)) (k : String) : List (String × α) :=
  l.filter (fun p => p.1 != k)

/-- Redis SADD on the rooms:active set. -/
def saddStr (l : List String) (r : String) : List String :=
  if r ∈ l then l else l ++ [r]

/-- QueueManager.addToQueue: zadd of the serialized entry with the
timestamp as score; returns true. -/
def addToQueue (userId : String) (t : Nat) (s : ServerState) : Bool × ServerState :=
  (true, { s with queue := zinsert ⟨userId, t⟩ s.queue })

/-- QueueManager.removeFromQueue: scan zrange 0 -1 and zrem the first
entry whose userId matches. -/
def removeFromQueue (userId : String) (s : ServerState) : Bool × ServerState :=
  match removeFirstUser s.queue userId with
  | some q => (true, { s with queue := q })
  | none => (false, s)

/-- QueueManager.getNextFromQueue: zrange 0 0 (the minimum by score then
member string) and zrem it. -/
def getNextFromQueue (s : ServerState) : Option QueueEntry × ServerState :=
  match s.queue with
  | [] => (none, s)
  | e :: rest => (some e, { s with queue := rest })

/-- QueueManager.getQueueSize: zcard. -/
def getQueueSize (s : ServerState) : Nat :=
  s.queue.length

/-- QueueManager.isInQueue: scan zrange 0 -1 for the userId. -/
def isInQueue (userId : String) (s : ServerState) : Bool :=
  s.queue.any (fun e => e.userId == userId)

/-- QueueManager.createRoom with an explicit failure oracle: failAt =
some k means the k-th Redis write (0 = setex room payload, 1 = setex
first mapping, 2 = setex second mapping, 3 = sadd active set, 4 =
hincrby totalRooms) throws; the catch block returns null.  The uuid is
generated before any write, so the supply counter always advances. -/
def createRoomF (u1 u2 : String) (t : Nat) (failAt : Option Nat) (s : ServerState) :
    Option RoomData × ServerState :=
  let rid := s.supply s.nextId
  let d : RoomData := ⟨rid, [u1, u2], t, "active"⟩
  let base := { s with nextId := s.nextId + 1 }
  if failAt = some 0 then (none, base)
  else
    let s1 := { base with roomData := setKey base.roomData rid d }
    if failAt = some 1 then (none, s1)
    else
      let s2 := { s1 with userRoom := setKey s1.userRoom u1 rid }
      if failAt = some 2 then (none, s2)
      else
        let s3 := { s2 with userRoom := setKey s2.userRoom u2 rid }
        if failAt = some 3 then (none, s3)
        else
          let s4 := { s3 with activeRooms := saddStr s3.activeRooms rid }
          if failAt = some 4 then (none, s4)
          else
            (some d, { s4 with totalRooms := s4.totalRooms + 1 })

/-- QueueManager.createRoom on the fault-free path. -/
def createRoom (u1 u2 : String) (t : Nat) (s : ServerState) : Option RoomData × ServerState :=
  createRoomF u1 u2 t none s

/-- QueueManager.getRoom: read room:data:<roomId>. -/
def getRoom (roomId : String) (s : ServerState) : Option RoomData :=
  List.lookup roomId s.roomData

/-- QueueManager.getRoomByUser: read user:room:<userId> then the room
payload; null when either key is absent. -/
def getRoomByUser (userId : String) (s : ServerState) : Option RoomData :=
  match List.lookup userId s.userRoom with
  | none => none
  | some roomId => getRoom roomId s

/-- QueueManager.closeRoom: read the payload (false when absent), delete
both user mappings, the payload and the active-set member. -/
def closeRoom (roomId : String) (s : ServerState) : Bool × ServerState :=
  match getRoom roomId s with
  | none => (false, s)
  | some d =>
      (true,
        { s with
          userRoom := d.users.foldl (fun m u => delKey m u) s.userRoom
          roomData := delKey s.roomData roomId
          activeRooms := s.activeRooms.filter (fun r => r != roomId) })

/-- QueueManager.getOtherUser: the first user in the room payload that
differs from the caller (users.find with a strict inequality); null when
the payload is absent.  User ids are nonempty socket ids, so the JS
or-null coercion on the found id never fires. -/
def getOtherUser (roomId userId : String) (s : ServerState) : Option String :=
  match getRoom roomId s with
  | none => none
  | some d => d.users.find? (fun id => id != userId)

/-- SignalingService.handleFindPartner: reject when already in a room,
report waiting when already queued, otherwise dequeue the oldest waiter
and pair, or enqueue and report the queue position. -/
def handleFindPartner (uid : String) (t : Nat) (s : ServerState) :
    ServerState × List Frame :=
  match getRoomByUser uid s with
  | some _ => (s, [.errorF uid "You are already in a chat"])
  | none =>
    if isInQueue uid s then
      (s, [.waiting uid "Already searching for a partner..."])
    else
      match getNextFromQueue s with
      | (some partner, s1) =>
        if partner.userId != uid then
          match createRoom uid partner.userId t s1 with
          | (some room, s2) =>
            (s2, [.matched uid room.roomId true, .matched partner.userId room.roomId false])
          | (none, s2) =>
            let r1 := addToQueue uid t s2
            let r2 := addToQueue partner.userId t r1.2
            (r2.2, [.errorF uid "Failed to create chat room. Please try again."])
        else
          let r := addToQueue uid t s1
          (r.2, [.waiting uid "Searching for a partner...",
                 .queueUpdate uid (getQueueSize r.2)])
      | (none, s1) =>
          let r := addToQueue uid t s1
          (r.2, [.waiting uid "Searching for a partner...",
                 .queueUpdate uid (getQueueSize r.2)])

/-- SignalingService.handleOffer: reject falsy fields, look up the peer
with getOtherUser, forward the offer to the peer or report an error to
the sender. -/
def handleOffer (uid : String) (offer roomId : Option String) (s : ServerState) :
    ServerState × List Frame :=
  match offer, roomId with
  | some o, some r =>
      match getOtherUser r uid s with
      | some partnerId => (s, [.offerF partnerId o r])
      | none => (s, [.errorF uid "Partner not found"])
  | _, _ => (s, [.errorF uid "Invalid offer data"])

/-- SignalingService.handleAnswer: same shape as handleOffer. -/
def handleAnswer (uid : String) (answer roomId : Option String) (s : ServerState) :
    ServerState × List Frame :=
  match answer, roomId with
  | some a, some r =>
      match getOtherUser r uid s with
      | some partnerId => (s, [.answerF partnerId a r])
      | none => (s, [.errorF uid "Partner not found"])
  | _, _ => (s, [.errorF uid "Invalid answer data"])

/-- SignalingService.handleIceCandidate: falsy fields return silently,
and a missing peer also returns silently. -/
def handleIceCandidate (uid : String) (candidate roomId : Option String) (s : ServerState) :
    ServerState × List Frame :=
  match candidate, roomId with
  | some c, some r =>
      match getOtherUser r uid s with
      | some partnerId => (s, [.iceF partnerId c r])
      | none => (s, [])
  | _, _ => (s, [])

/-- SignalingService.handleLeaveChat: when in a room notify the peer and
close the room, then always remove the caller from the queue and emit
left-chat to the caller. -/
def handleLeaveChat (uid : String) (s : ServerState) : ServerState × List Frame :=
  match getRoomByUser uid s with
  | some room =>
      let fs := match getOtherUser room.roomId uid s with
                | some partnerId => [Frame.partnerLeft partnerId]
                | none => []
      let s1 := (closeRoom room.roomId s).2
      let s2 := (removeFromQueue uid s1).2
      (s2, fs ++ [.leftChat uid])
  | none =>
      let s2 := (removeFromQueue uid s).2
      (s2, [.leftChat uid])

/-- SignalingService.handleDisconnect: like handleLeaveChat but with a
partner-disconnected notification and no left-chat frame. -/
def handleDisconnect (uid : String) (s : ServerState) : ServerState × List Frame :=
  match getRoomByUser uid s with
  | some room =>
      let fs := match getOtherUser room.roomId uid s with
                | some partnerId => [Frame.partnerDisconnected partnerId]
                | none => []
      let s1 := (closeRoom room.roomId s).2
      let s2 := (removeFromQueue uid s1).2
      (s2, fs)
  | none =>
      let s2 := (removeFromQueue uid s).2
      (s2, [])

/-- Client-driven events plus the firing of the setTimeout scheduled by
handleSkipPartner.  The skip event performs the leave part and records
the outstanding timer; fireSkipTimer runs the deferred handleFindPartner
(the timestamp is the Date.now() value observed at firing time). -/
inductive Event where
  | findPartner (uid : String) (t : Nat)
  | leaveChat (uid : String)
  | disconnect (uid : String)
  | skipPartner (uid : String)
  | fireSkipTimer (uid : String) (t : Nat)
deriving Repr, DecidableEq

/-- One event step of the SignalingService.  Nothing cancels a pending
skip timer: the source never calls clearTimeout, so disconnect leaves
pending untouched. -/
def stepE (ev : Event) (s : ServerState) : ServerState × List Frame :=
  match ev with
  | .findPartner u t => handleFindPartner u t s
  | .leaveChat u => handleLeaveChat u s
  | .disconnect u => handleDisconnect u s
  | .skipPartner u =>
      let r := handleLeaveChat u s
      ({ r.1 with pending := r.1.pending ++ [u] }, r.2)
  | .fireSkipTimer u t =>
      if u ∈ s.pending then
        handleFindPartner u t { s with pending := s.pending.erase u }
      else (s, [])

/-- Run a sequence of events, collecting all emitted frames. -/
def runE (es : List Event) (s : ServerState) : ServerState × List Frame :=
  es.foldl (fun acc ev => let r := stepE ev acc.1; (r.1, acc.2 ++ r.2)) (s, [])

/-- The state of a freshly started server: empty queue, no rooms, no
mappings, zeroed statistics, no outstanding timers. -/
def initState (sup : Nat → String) : ServerState :=
  ⟨[], [], [], [], 0, [], sup, 0⟩

/-- A concrete injective uuid supply used in concrete runs. -/
def testSupply : Nat → String :=
  fun n => String.mk (List.replicate (n + 1) 'r')

/-- A concrete state with one active room r joining users a and b, as
createRoom leaves it. -/
def roomState : ServerState :=
  ⟨[], [("r", ⟨"r", ["a", "b"], 0, "active"⟩)], [("a", "r"), ("b", "r")], ["r"], 1, [],
    testSupply, 1⟩

/-- A concrete state with the single user a waiting in the queue. -/
def queuedState : ServerState :=
  (addToQueue "a" 1 (initState testSupply)).2

/-- The state right after user a sent skip-partner while idle: the
deferred find-partner timer is outstanding. -/
def skippedState : ServerState :=
  (stepE (.skipPartner "a") (initState testSupply)).1

/-- True when the user has an entry in the queue:waiting sorted set. -/
def queuedB (u : String) (s : ServerState) : Bool :=
  isInQueue u s

/-- True when the user has a user:room mapping. -/
def pairedB (u : String) (s : ServerState) : Bool :=
  (List.lookup u s.userRoom).isSome

/-- True when the user neither has a queue entry nor a room mapping. -/
def idleB (u : String) (s : ServerState) : Bool :=
  !queuedB u s && !pairedB u s

/-- The state invariant maintained by every signaling event: queue
entries carry pairwise distinct user ids; queued users have no room
mapping; every mapping points at a room payload listing the user; every
payload user points back at the room; and room ids come injectively from
the supply with all stored ids already generated. -/
structure Inv (s : ServerState) : Prop where
  qPairwise : s.queue.Pairwise (fun a b => a.userId ≠ b.userId)
  qNoRoom : ∀ e ∈ s.queue, List.lookup e.userId s.userRoom = none
  urSound : ∀ u r, List.lookup u s.userRoom = some r →
    ∃ d, List.lookup r s.roomData = some d ∧ u ∈ d.users
  rdSound : ∀ r d, List.lookup r s.roomData = some d →
    ∀ u ∈ d.users, List.lookup u s.userRoom = some r
  supInj : Function.Injective s.supply
  rdFresh : ∀ r, (List.lookup r s.roomData).isSome → ∃ k, k < s.nextId ∧ r = s.supply k

theorem testSupply_injective : Function.Injective testSupply := by
  intro a b h
  have h2 := congrArg (fun s => s.data.length) h
  simpa [testSupply] using h2

theorem lookup_cons_eq (t : List (String × α)) (k : String) (b : α) :
    List.lookup k ((k, b) :: t) = some b := by
  simp [List.lookup]

theorem lookup_cons_ne (t : List (String × α)) (k k' : String) (b : α) (h : k' ≠ k) :
    List.lookup k' ((k, b) :: t) = List.lookup k' t := by
  simp [List.lookup, beq_false_of_ne h]

theorem lookup_setKey_self (l : List (String × α)) (k : String) (v : α) :
    List.lookup k (setKey l k v) = some v := by
  induction l with
  | nil => simp [setKey, lookup_cons_eq]
  | cons p t ih =>
      rw [setKey, List.filter_cons]
      by_cases h : p.1 = k
      · simp only [h, bne_self_eq_false, Bool.false_eq_true, if_false]
        rw [← setKey]
        exact ih
      · have hb : (p.1 != k) = true := bne_iff_ne.2 h
        simp only [hb, if_true, List.cons_append]
        rw [show (p :: (List.filter (fun q => q.1 != k) t ++ [(k, v)]))
              = (p.1, p.2) :: (List.filter (fun q => q.1 != k) t ++ [(k, v)]) by rfl]
        rw [lookup_cons_ne _ _ _ _ (Ne.symm h), ← setKey]
        exact ih

theorem lookup_setKey_ne (l : List (String × α)) (k k' : String) (v : α) (h : k' ≠ k) :
    List.lookup k' (setKey l k v) = List.lookup k' l := by
  induction l with
  | nil =>
      rw [setKey, List.filter_nil, List.nil_append, lookup_cons_ne _ _ _ _ h]
  | cons p t ih =>
      rw [setKey, List.filter_cons]
      by_cases hp : p.1 = k
      · simp only [hp, bne_self_eq_false, Bool.false_eq_true, if_false]
        rw [← setKey, ih]
        rw [show (p :: t) = (p.1, p.2) :: t by rfl]
        rw [lookup_cons_ne _ _ _ _ (hp ▸ h)]
      · have hb : (p.1 != k) = true := bne_iff_ne.2 hp
        simp only [hb, if_true, List.cons_append]
        rw [show (p :: (List.filter (fun q => q.1 != k) t ++ [(k, v)]))
              = (p.1, p.2) :: (List.filter (fun q => q.1 != k) t ++ [(k, v)]) by rfl]
        rw [show (p :: t) = (p.1, p.2) :: t by rfl]
        by_cases hk : k' = p.1
        · rw [hk, lookup_cons_eq, lookup_cons_eq]
        · rw [lookup_cons_ne _ _ _ _ hk, lookup_cons_ne _ _ _ _ hk, ← setKey]
          exact ih

theorem lookup_delKey_self (l : List (String × α)) (k : String) :
    List.lookup k (delKey l k) = none := by
  induction l with
  | nil => simp [delKey, List.lookup]
  | cons p t ih =>
      rw [delKey, List.filter_cons]
      by_cases h : p.1 = k
      · simp only [h, bne_self_eq_false, Bool.false_eq_true, if_false]
        rw [← delKey]
        exact ih
      · have hb : (p.1 != k) = true := bne_iff_ne.2 h
        simp only [hb, if_true]
        rw [show (p :: List.filter (fun q => q.1 != k) t)
              = (p.1, p.2) :: List.filter (fun q => q.1 != k) t by rfl]
        rw [lookup_cons_ne _ _ _ _ (Ne.symm h), ← delKey]
        exact ih

theorem lookup_delKey_ne (l : List (String × α)) (k k' : String) (h : k' ≠ k) :
    List.lookup k' (delKey l k) = List.lookup k' l := by
  induction l with
  | nil => simp [delKey]
  | cons p t ih =>
      rw [delKey, List.filter_cons]
      by_cases hp : p.1 = k
      · simp only [hp, bne_self_eq_false, Bool.false_eq_true, if_false]
        rw [← delKey, ih]
        rw [show (p :: t) = (p.1, p.2) :: t by rfl]
        rw [lookup_cons_ne _ _ _ _ (hp ▸ h)]
      · have hb : (p.1 != k) = true := bne_iff_ne.2 hp
        simp only [hb, if_true]
        rw [show (p :: List.filter (fun q => q.1 != k) t)
              = (p.1, p.2) :: List.filter (fun q => q.1 != k) t by rfl]
        rw [show (p :: t) = (p.1, p.2) :: t by rfl]
        by_cases hk : k' = p.1
        · rw [hk, lookup_cons_eq, lookup_cons_eq]
        · rw [lookup_cons_ne _ _ _ _ hk, lookup_cons_ne _ _ _ _ hk, ← delKey]
          exact ih

theorem lookup_foldl_delKey (users : List String) (m : List (String × α)) (u : String) :
    List.lookup u (users.foldl (fun acc w => delKey acc w) m)
      = if u ∈ users then none else List.lookup u m := by
  induction users generalizing m with
  | nil => simp
  | cons w t ih =>
      rw [List.foldl_cons, ih]
      by_cases hm : u ∈ t
      · simp [hm, List.mem_cons]
      · by_cases hw : u = w
        · simp [hw, hm, lookup_delKey_self, List.mem_cons]
        · simp [hm, hw, lookup_delKey_ne _ _ _ hw, List.mem_cons]

theorem mem_zinsert (x e : QueueEntry) (l : List QueueEntry) :
    x ∈ zinsert e l ↔ x = e ∨ x ∈ l := by
  induction l with
  | nil => simp [zinsert]
  | cons y t ih =>
      simp only [zinsert]
      by_cases h1 : e = y
      · subst h1
        rw [if_pos rfl]
        constructor
        · exact fun hx => Or.inr hx
        · rintro (rfl | hx)
          · exact List.mem_cons_self _ _
          · exact hx
      · rw [if_neg h1]
        by_cases h2 : entryLtB e y = true
        · rw [if_pos h2]
          simp only [List.mem_cons]
        · rw [if_neg h2]
          simp only [List.mem_cons, ih]
          tauto

theorem mem_zinsert_self (e : QueueEntry) (l : List QueueEntry) : e ∈ zinsert e l :=
  (mem_zinsert e e l).2 (Or.inl rfl)

theorem zinsert_pairwise_ne (e : QueueEntry) (l : List QueueEntry)
    (hl : l.Pairwise (fun a b => a.userId ≠ b.userId))
    (he : ∀ x ∈ l, x.userId ≠ e.userId) :
    (zinsert e l).Pairwise (fun a b => a.userId ≠ b.userId) := by
  induction l with
  | nil => simp [zinsert]
  | cons y t ih =>
      simp only [zinsert]
      by_cases h1 : e = y
      · rw [if_pos h1]
        exact hl
      · rw [if_neg h1]
        rcases List.pairwise_cons.1 hl with ⟨hy, ht⟩
        by_cases h2 : entryLtB e y = true
        · rw [if_pos h2]
          refine List.pairwise_cons.2 ⟨?_, hl⟩
          intro x hx
          exact Ne.symm (he x hx)
        · rw [if_neg h2]
          refine List.pairwise_cons.2 ⟨?_, ?_⟩
          · intro x hx
            rcases (mem_zinsert x e t).1 hx with rfl | hx2
            · exact he y (List.mem_cons_self _ _)
            · exact hy x hx2
          · exact ih ht (fun x hx => he x (List.mem_cons.2 (Or.inr hx)))

theorem removeFirstUser_sublist (l : List QueueEntry) (u : String) (l' : List QueueEntry)
    (h : removeFirstUser l u = some l') : l'.Sublist l := by
  induction l generalizing l' with
  | nil => simp [removeFirstUser] at h
  | cons e t ih =>
      simp only [removeFirstUser] at h
      by_cases he : (e.userId == u) = true
      · rw [if_pos he] at h
        cases h
        exact List.sublist_cons_self e t
      · rw [if_neg he] at h
        cases hrec : removeFirstUser t u with
        | none => rw [hrec] at h; simp at h
        | some t' =>
            rw [hrec] at h
            simp only [Option.map_some', Option.some.injEq] at h
            subst h
            exact List.Sublist.cons₂ e (ih t' hrec)

theorem removeFirstUser_eq_none (l : List QueueEntry) (u : String) :
    removeFirstUser l u = none ↔ l.any (fun e => e.userId == u) = false := by
  induction l with
  | nil => simp [removeFirstUser]
  | cons e t ih =>
      simp only [removeFirstUser, List.any_cons]
      by_cases he : (e.userId == u) = true
      · rw [if_pos he]
        simp [he]
      · rw [if_neg he]
        simp only [Bool.not_eq_true] at he
        simp [he, Option.map_eq_none', ih]

theorem removeFirstUser_countP (l : List QueueEntry) (u : String) (l' : List QueueEntry)
    (h : removeFirstUser l u = some l') :
    l.countP (fun e => e.userId == u) = l'.countP (fun e => e.userId == u) + 1 := by
  induction l generalizing l' with
  | nil => simp [removeFirstUser] at h
  | cons e t ih =>
      simp only [removeFirstUser] at h
      by_cases he : (e.userId == u) = true
      · rw [if_pos he] at h
        cases h
        simp [List.countP_cons, he]
      · rw [if_neg he] at h
        cases hrec : removeFirstUser t u with
        | none => rw [hrec] at h; simp at h
        | some t' =>
            rw [hrec] at h
            simp only [Option.map_some', Option.some.injEq] at h
            subst h
            simp only [Bool.not_eq_true] at he
            simp [List.countP_cons, he, ih t' hrec]

theorem removeFromQueue_pending (u : String) (s : ServerState) :
    (removeFromQueue u s).2.pending = s.pending := by
  unfold removeFromQueue
  cases removeFirstUser s.queue u <;> rfl

theorem closeRoom_pending (r : String) (s : ServerState) :
    (closeRoom r s).2.pending = s.pending := by
  unfold closeRoom
  cases getRoom r s <;> rfl

theorem handleDisconnect_pending (u : String) (s : ServerState) :
    (handleDisconnect u s).1.pending = s.pending := by
  unfold handleDisconnect
  cases h : getRoomByUser u s with
  | none => exact removeFromQueue_pending u s
  | some room =>
      show (removeFromQueue u (closeRoom room.roomId s).2).2.pending = s.pending
      rw [removeFromQueue_pending, closeRoom_pending]

/-- The fault-free createRoom, written out: fresh id, payload, the two
user mappings, the active-set member and the counter bump. -/
theorem createRoom_eq (u1 u2 : String) (t : Nat) (s : ServerState) :
    createRoom u1 u2 t s
      = (some ⟨s.supply s.nextId, [u1, u2], t, "active"⟩,
         { s with
           roomData := setKey s.roomData (s.supply s.nextId)
             ⟨s.supply s.nextId, [u1, u2], t, "active"⟩
           userRoom := setKey (setKey s.userRoom u1 (s.supply s.nextId)) u2 (s.supply s.nextId)
           activeRooms := saddStr s.activeRooms (s.supply s.nextId)
           totalRooms := s.totalRooms + 1
           nextId := s.nextId + 1 }) := rfl

/-- A find-partner from a fresh caller while the queue is empty reports
waiting at position 1 and enqueues the caller. -/
theorem findPartner_enqueues (s : ServerState) (u : String) (t : Nat)
    (hroom : List.lookup u s.userRoom = none) (hq : s.queue = []) :
    handleFindPartner u t s
      = ({ s with queue := [⟨u, t⟩] },
         [Frame.waiting u "Searching for a partner...", Frame.queueUpdate u 1]) := by
  have hiq : isInQueue u s = false := by rw [isInQueue, hq]; rfl
  have hnext : getNextFromQueue s = (none, s) := by unfold getNextFromQueue; rw [hq]
  unfold handleFindPartner getRoomByUser
  rw [hroom]
  simp only [hiq, Bool.false_eq_true, if_false, hnext]
  show (_, [Frame.waiting u "Searching for a partner...",
            Frame.queueUpdate u (getQueueSize (addToQueue u t s).2)])
    = ({ s with queue := [⟨u, t⟩] }, _)
  unfold addToQueue getQueueSize
  rw [hq]
  rfl

/-- A find-partner from a fresh caller while the queue is nonempty pairs
the caller with the head entry through createRoom. -/
theorem findPartner_pairs_with_head (s : ServerState) (c : String) (tc : Nat)
    (e : QueueEntry) (rest : List QueueEntry) (hq : s.queue = e :: rest)
    (hroom : List.lookup c s.userRoom = none)
    (hni : s.queue.any (fun x => x.userId == c) = false) :
    handleFindPartner c tc s
      = ((createRoom c e.userId tc { s with queue := rest }).2,
         [Frame.matched c (s.supply s.nextId) true,
          Frame.matched e.userId (s.supply s.nextId) false]) := by
  have hiq : isInQueue c s = false := hni
  have hnext : getNextFromQueue s = (some e, { s with queue := rest }) := by
    unfold getNextFromQueue; rw [hq]
  have hne : (e.userId == c) = false := by
    rw [hq, List.any_cons, Bool.or_eq_false_iff] at hni
    exact hni.1
  have hbne : (e.userId != c) = true := by simp [bne, hne]
  unfold handleFindPartner getRoomByUser
  rw [hroom]
  simp only [hiq, Bool.false_eq_true, if_false, hnext, hbne, if_true, createRoom_eq]

/-- Claim C4 counterexample: starting from a fresh server, client a
sends skip-partner while idle, disconnects, and then the 500 ms timer
fires: the deferred find-partner runs anyway and puts the disconnected
id a into the waiting queue. -/
theorem c4_counterexample :
    isInQueue "a" (runE [.skipPartner "a", .disconnect "a", .fireSkipTimer "a" 5]
      (initState testSupply)).1 = true := by decide

/-- Claim C4 amended: the skip-partner delay is not cancellable:
disconnect leaves the outstanding timer in place, and when the timer
fires for a disconnected (idle) client with an empty queue, the deferred
find-partner enqueues the dead client id. -/
theorem c4_amended_timer_not_cancelled (s : ServerState) (u : String) (t : Nat) :
    (stepE (.disconnect u) s).1.pending = s.pending ∧
    (u ∈ s.pending → List.lookup u s.userRoom = none → s.queue = [] →
      isInQueue u (stepE (.fireSkipTimer u t) s).1 = true) := by
  refine ⟨handleDisconnect_pending u s, fun hp hroom hq => ?_⟩
  show isInQueue u (if u ∈ s.pending then
      handleFindPartner u t { s with pending := s.pending.erase u } else (s, [])).1 = true
  rw [if_pos hp]
  rw [findPartner_enqueues { s with pending := s.pending.erase u } u t hroom hq]
  simp [isInQueue]

/-- Claim C4 amended, witness at a concrete input. -/
theorem c4_witness :
    isInQueue "a" (stepE (.fireSkipTimer "a" 5) skippedState).1 = true :=
  (c4_amended_timer_not_cancelled skippedState "a" 5).2 (by decide) (by decide) (by decide)

/-- Claim C7 counterexample: with equal enqueue timestamps insertion
order is not respected: b enqueues first and a second, both at
timestamp 5, yet dequeue returns a (the lexicographically smaller
member), and a third client c is then matched with a, not with b. -/
theorem c7_counterexample :
    (getNextFromQueue (addToQueue "a" 5 (addToQueue "b" 5 (initState testSupply)).2).2).1
      = some ⟨"a", 5⟩ ∧
    (handleFindPartner "c" 6 (addToQueue "a" 5 (addToQueue "b" 5 (initState testSupply)).2).2).2
      = [Frame.matched "c" "r" true, Frame.matched "a" "r" false] :=
  ⟨by decide, by decide⟩

/-- Claim C7 amended: dequeue-oldest returns the entry with the lowest
enqueue timestamp, but ties are broken by the lexicographic order of
the serialized member, not by insertion order.  With strictly increasing
timestamps FIFO holds: a enqueued strictly before b is dequeued first,
and a third client c is matched with a; with equal timestamps, the entry
whose serialized member is lexicographically smaller wins even when it
was inserted second. -/
theorem c7_amended_fifo_by_score (s : ServerState) (a b c : String) (ta tb tc : Nat)
    (hq : s.queue = []) (hab : ta < tb) (hcu : List.lookup c s.userRoom = none)
    (hca : c ≠ a) (hcb : c ≠ b) :
    (getNextFromQueue (addToQueue b tb (addToQueue a ta s).2).2).1 = some ⟨a, ta⟩ ∧
    (handleFindPartner c tc (addToQueue b tb (addToQueue a ta s).2).2).2
      = [Frame.matched c (s.supply s.nextId) true,
         Frame.matched a (s.supply s.nextId) false] ∧
    (∀ a2 b2 t2, a2 ≠ b2 → memberLt ⟨a2, t2⟩ ⟨b2, t2⟩ = true →
      (getNextFromQueue (addToQueue a2 t2 (addToQueue b2 t2 s).2).2).1 = some ⟨a2, t2⟩) := by
  have hqueue : (addToQueue b tb (addToQueue a ta s).2).2.queue = [⟨a, ta⟩, ⟨b, tb⟩] := by
    show zinsert ⟨b, tb⟩ (zinsert ⟨a, ta⟩ s.queue) = [⟨a, ta⟩, ⟨b, tb⟩]
    rw [hq]
    have hne : (⟨b, tb⟩ : QueueEntry) ≠ ⟨a, ta⟩ := by
      intro hcon
      exact Nat.ne_of_gt hab (congrArg QueueEntry.timestamp hcon)
    have hlt : entryLtB ⟨b, tb⟩ ⟨a, ta⟩ = false := by
      have h1 : ¬ (tb < ta) := Nat.lt_asymm hab
      have h2 : (tb == ta) = false := beq_false_of_ne (Ne.symm (Nat.ne_of_lt hab))
      simp [entryLtB, h1, h2]
    simp [zinsert, hne, hlt]
  refine ⟨?_, ?_, ?_⟩
  · unfold getNextFromQueue
    rw [hqueue]
  · have hni : (addToQueue b tb (addToQueue a ta s).2).2.queue.any
        (fun x => x.userId == c) = false := by
      rw [hqueue]
      simp [beq_false_of_ne (Ne.symm hca), beq_false_of_ne (Ne.symm hcb)]
    rw [findPartner_pairs_with_head _ c tc ⟨a, ta⟩ [⟨b, tb⟩] hqueue hcu hni]
    rfl
  · intro a2 b2 t2 hne2 hlex
    have hqueue2 : (addToQueue a2 t2 (addToQueue b2 t2 s).2).2.queue
        = [⟨a2, t2⟩, ⟨b2, t2⟩] := by
      show zinsert ⟨a2, t2⟩ (zinsert ⟨b2, t2⟩ s.queue) = [⟨a2, t2⟩, ⟨b2, t2⟩]
      rw [hq]
      have hne3 : (⟨a2, t2⟩ : QueueEntry) ≠ ⟨b2, t2⟩ := by
        intro hcon
        exact hne2 (congrArg QueueEntry.userId hcon)
      have hlt : entryLtB ⟨a2, t2⟩ ⟨b2, t2⟩ = true := by
        simp [entryLtB, hlex]
      simp [zinsert, hne3, hlt]
    unfold getNextFromQueue
    rw [hqueue2]

/-- Claim C7 amended, witness at a concrete input. -/
theorem c7_witness :
    (getNextFromQueue (addToQueue "b" 2 (addToQueue "a" 1 (initState testSupply)).2).2).1
      = some ⟨"a", 1⟩ :=
  (c7_amended_fifo_by_score (initState testSupply) "a" "b" "c" 1 2 3 (by decide) (by decide)
    (by decide) (by decide) (by decide)).1

/-- Claim C10: a leave-chat event always emits left-chat to the caller;
when the caller is idle the state is untouched and the left-chat frame
is the only effect; when the caller is queued (with its single entry)
the entry is removed, the room keys stay untouched, and left-chat is the
only frame. -/
theorem c10_leaveChat_always_acks (s : ServerState) (u : String) :
    Frame.leftChat u ∈ (handleLeaveChat u s).2 ∧
    (List.lookup u s.userRoom = none → isInQueue u s = false →
      handleLeaveChat u s = (s, [Frame.leftChat u])) ∧
    (List.lookup u s.userRoom = none →
      s.queue.countP (fun e => e.userId == u) = 1 →
      (handleLeaveChat u s).2 = [Frame.leftChat u] ∧
      isInQueue u (handleLeaveChat u s).1 = false ∧
      (handleLeaveChat u s).1.userRoom = s.userRoom) := by
  refine ⟨?_, ?_, ?_⟩
  · unfold handleLeaveChat
    cases h : getRoomByUser u s with
    | none =>
        show Frame.leftChat u ∈ [Frame.leftChat u]
        exact List.mem_cons_self _ _
    | some room =>
        show Frame.leftChat u ∈
          ((match getOtherUser room.roomId u s with
            | some partnerId => [Frame.partnerLeft partnerId]
            | none => []) ++ [Frame.leftChat u])
        exact List.mem_append_right _ (List.mem_cons_self _ _)
  · intro hroom hiq
    have hnone : removeFirstUser s.queue u = none :=
      (removeFirstUser_eq_none s.queue u).2 hiq
    unfold handleLeaveChat getRoomByUser
    rw [hroom]
    unfold removeFromQueue
    rw [hnone]
  · intro hroom hcount
    cases hrem : removeFirstUser s.queue u with
    | none =>
        have hz : s.queue.countP (fun e => e.userId == u) = 0 := by
          have hany := (removeFirstUser_eq_none s.queue u).1 hrem
          simp only [List.any_eq_false] at hany
          exact List.countP_eq_zero.2 (by simpa using hany)
        omega
    | some q2 =>
        have hc2 : q2.countP (fun e => e.userId == u) = 0 := by
          have := removeFirstUser_countP s.queue u q2 hrem
          omega
        have hiq2 : q2.any (fun e => e.userId == u) = false := by
          rw [List.any_eq_false]
          intro x hx
          have := List.countP_eq_zero.1 hc2 x hx
          simpa using this
        unfold handleLeaveChat getRoomByUser
        rw [hroom]
        unfold removeFromQueue
        rw [hrem]
        exact ⟨rfl, hiq2, rfl⟩

/-- Claim C10, witness at a concrete input. -/
theorem c10_witness :
    (handleLeaveChat "a" queuedState).2 = [Frame.leftChat "a"] ∧
    isInQueue "a" (handleLeaveChat "a" queuedState).1 = false ∧
    (handleLeaveChat "a" queuedState).1.userRoom = queuedState.userRoom :=
  (c10_leaveChat_always_acks queuedState "a").2.2 (by decide) (by decide)

theorem runE_state (es : List Event) (s : ServerState) :
    (runE es s).1 = es.foldl (fun st ev => (stepE ev st).1) s := by
  have key : ∀ (l : List Event) (st : ServerState) (fs : List Frame),
      (l.foldl (fun acc ev => let r := stepE ev acc.1; (r.1, acc.2 ++ r.2)) (st, fs)).1
        = l.foldl (fun x ev => (stepE ev x).1) st := by
    intro l
    induction l with
    | nil => intro st fs; rfl
    | cons e t ih =>
        intro st fs
        simp only [List.foldl_cons]
        exact ih _ _
  exact key es s []

/-- The paired find-partner outcome with the successor state written as
one record: the head waiter is dequeued, the room payload, both
mappings, the active member and the counter are written. -/
theorem findPartner_pairs_explicit (s : ServerState) (c : String) (tc : Nat)
    (e : QueueEntry) (rest : List QueueEntry) (hq : s.queue = e :: rest)
    (hroom : List.lookup c s.userRoom = none)
    (hni : s.queue.any (fun x => x.userId == c) = false) :
    handleFindPartner c tc s
      = ({ s with
           queue := rest
           roomData := setKey s.roomData (s.supply s.nextId)
             ⟨s.supply s.nextId, [c, e.userId], tc, "active"⟩
           userRoom := setKey (setKey s.userRoom c (s.supply s.nextId)) e.userId
             (s.supply s.nextId)
           activeRooms := saddStr s.activeRooms (s.supply s.nextId)
           totalRooms := s.totalRooms + 1
           nextId := s.nextId + 1 },
         [Frame.matched c (s.supply s.nextId) true,
          Frame.matched e.userId (s.supply s.nextId) false]) := by
  rw [findPartner_pairs_with_head s c tc e rest hq hroom hni]
  rfl

/-- Processing distinct fresh find-partner callers one at a time: each
caller either pairs with the single waiter or becomes the single waiter,
so rooms and queue sizes follow the parity of the number of requests. -/
theorem findPartner_run_counts (us : List (String × Nat)) (s : ServerState)
    (hnodup : (us.map Prod.fst).Nodup)
    (hfresh : ∀ p ∈ us, List.lookup p.1 s.userRoom = none)
    (hqueue : s.queue = [] ∨ ∃ e, s.queue = [e] ∧ e.userId ∉ us.map Prod.fst) :
    (us.foldl (fun st p => (handleFindPartner p.1 p.2 st).1) s).totalRooms
      = s.totalRooms + (us.length + s.queue.length) / 2 ∧
    (us.foldl (fun st p => (handleFindPartner p.1 p.2 st).1) s).queue.length
      = (us.length + s.queue.length) % 2 := by
  induction us generalizing s with
  | nil =>
      rcases hqueue with hq | ⟨e, hq, _⟩
      · simp [hq]
      · simp [hq]
  | cons p rest ih =>
      simp only [List.map_cons, List.nodup_cons, List.mem_map, not_exists] at hnodup
      rcases hnodup with ⟨hp_notin, hnodup_rest⟩
      have hproom : List.lookup p.1 s.userRoom = none :=
        hfresh p (List.mem_cons_self _ _)
      rcases hqueue with hq | ⟨e, hq, hein⟩
      · -- empty queue: the caller is enqueued
        rw [List.foldl_cons, findPartner_enqueues s p.1 p.2 hproom hq]
        have hfresh2 : ∀ q ∈ rest,
            List.lookup q.1 ({ s with queue := [⟨p.1, p.2⟩] } : ServerState).userRoom = none :=
          fun q hqmem => hfresh q (List.mem_cons.2 (Or.inr hqmem))
        have hqueue2 : ({ s with queue := [⟨p.1, p.2⟩] } : ServerState).queue = []
            ∨ ∃ e2, ({ s with queue := [⟨p.1, p.2⟩] } : ServerState).queue = [e2]
                ∧ e2.userId ∉ rest.map Prod.fst := by
          refine Or.inr ⟨⟨p.1, p.2⟩, rfl, ?_⟩
          intro hmem
          rcases List.mem_map.1 hmem with ⟨q, hqmem, hq1⟩
          exact hp_notin q ⟨hqmem, hq1⟩
        have hrec := ih ({ s with queue := [⟨p.1, p.2⟩] }) hnodup_rest hfresh2 hqueue2
        rw [hq, hrec.1, hrec.2]
        constructor <;> simp only [List.length_cons, List.length_nil]
      · -- one waiter e: the caller pairs with it
        have hnip : s.queue.any (fun x => x.userId == p.1) = false := by
          rw [hq, List.any_cons, List.any_nil, Bool.or_false]
          refine beq_false_of_ne ?_
          intro hcon
          exact hein (List.mem_map.2 ⟨p, List.mem_cons_self _ _, hcon.symm⟩)
        rw [List.foldl_cons, findPartner_pairs_explicit s p.1 p.2 e [] hq hproom hnip]
        have hfresh2 : ∀ q ∈ rest,
            List.lookup q.1
              (setKey (setKey s.userRoom p.1 (s.supply s.nextId)) e.userId
                (s.supply s.nextId)) = none := by
          intro q hqmem
          have hqe : q.1 ≠ e.userId := by
            intro hcon
            exact hein (List.mem_map.2 ⟨q, List.mem_cons.2 (Or.inr hqmem), hcon⟩)
          have hqp : q.1 ≠ p.1 := fun hcon => hp_notin q ⟨hqmem, hcon⟩
          rw [lookup_setKey_ne _ _ _ _ hqe, lookup_setKey_ne _ _ _ _ hqp]
          exact hfresh q (List.mem_cons.2 (Or.inr hqmem))
        have hrec := ih
          { s with
            queue := ([] : List QueueEntry)
            roomData := setKey s.roomData (s.supply s.nextId)
              ⟨s.supply s.nextId, [p.1, e.userId], p.2, "active"⟩
            userRoom := setKey (setKey s.userRoom p.1 (s.supply s.nextId)) e.userId
              (s.supply s.nextId)
            activeRooms := saddStr s.activeRooms (s.supply s.nextId)
            totalRooms := s.totalRooms + 1
            nextId := s.nextId + 1 }
          hnodup_rest hfresh2 (Or.inl rfl)
        rw [hq, hrec.1, hrec.2]
        constructor <;> simp only [List.length_cons, List.length_nil] <;> omega

/-- Claim C6: N sequential find-partner requests from N distinct fresh
clients on an empty server create exactly N / 2 rooms (the totalRooms
counter counts one increment per created room) and leave exactly
N mod 2 clients waiting in the queue. -/
theorem c6_pairing_counts (sup : Nat → String) (us : List (String × Nat))
    (hnodup : (us.map Prod.fst).Nodup) :
    (runE (us.map (fun p => Event.findPartner p.1 p.2)) (initState sup)).1.totalRooms
      = us.length / 2 ∧
    (runE (us.map (fun p => Event.findPartner p.1 p.2)) (initState sup)).1.queue.length
      = us.length % 2 := by
  have h := findPartner_run_counts us (initState sup) hnodup (fun p _ => rfl) (Or.inl rfl)
  rw [runE_state, List.foldl_map]
  constructor
  · rw [show (us.foldl (fun x p => (stepE (Event.findPartner p.1 p.2) x).1) (initState sup))
        = (us.foldl (fun st p => (handleFindPartner p.1 p.2 st).1) (initState sup)) from rfl]
    rw [h.1]
    show 0 + (us.length + ([] : List QueueEntry).length) / 2 = us.length / 2
    simp
  · rw [show (us.foldl (fun x p => (stepE (Event.findPartner p.1 p.2) x).1) (initState sup))
        = (us.foldl (fun st p => (handleFindPartner p.1 p.2 st).1) (initState sup)) from rfl]
    rw [h.2]
    show (us.length + ([] : List QueueEntry).length) % 2 = us.length % 2
    simp

/-- Claim C6, witness at a concrete input: three distinct clients yield
one room and one waiter. -/
theorem c6_witness :
    (runE ([("a", 0), ("b", 1), ("c", 2)].map (fun p => Event.findPartner p.1 p.2))
      (initState testSupply)).1.totalRooms = 1 ∧
    (runE ([("a", 0), ("b", 1), ("c", 2)].map (fun p => Event.findPartner p.1 p.2))
      (initState testSupply)).1.queue.length = 1 :=
  c6_pairing_counts testSupply [("a", 0), ("b", 1), ("c", 2)] (by decide)

/-- Claim C8: closeRoom is idempotent in effect: for every state and
every roomId, a second closeRoom directly after a first one returns
false (notFound) and leaves the state exactly as the first call left it,
modifying no key. -/
theorem c8_closeRoom_idempotent (s : ServerState) (r : String) :
    closeRoom r (closeRoom r s).2 = (false, (closeRoom r s).2) := by
  cases h : getRoom r s with
  | none => simp [closeRoom, h]
  | some d =>
      have h' : List.lookup r s.roomData = some d := h
      have h2 : getRoom r (closeRoom r s).2 = none := by
        unfold closeRoom getRoom
        rw [h']
        exact lookup_delKey_self _ _
      generalize hs1 : (closeRoom r s).2 = s1 at h2 ⊢
      unfold closeRoom
      rw [h2]

/-- Claim C3 counterexample: when the write of the second user→room
mapping fails (failure point 2), createRoom returns Failure (null) but
the state is not rolled back: user a keeps a user→room mapping that was
absent before the call, so the claim that no mapping remains is false. -/
theorem c3_counterexample :
    (createRoomF "a" "b" 0 (some 2) (initState testSupply)).1 = none ∧
    List.lookup "a" (createRoomF "a" "b" 0 (some 2) (initState testSupply)).2.userRoom
      = some "r" ∧
    List.lookup "a" (initState testSupply).userRoom = none :=
  ⟨by decide, by decide, by decide⟩

/-- Claim C3 amended: on a sub-step failure createRoom returns Failure
but performs no rollback: every write completed before the failing step
remains.  Representative instance: when writing the second user→room
mapping fails, the room payload and the first user mapping persist while
the statistics counter is untouched. -/
theorem c3_amended_no_rollback (u1 u2 : String) (t : Nat) (s : ServerState) :
    (createRoomF u1 u2 t (some 2) s).1 = none ∧
    List.lookup u1 (createRoomF u1 u2 t (some 2) s).2.userRoom = some (s.supply s.nextId) ∧
    List.lookup (s.supply s.nextId) (createRoomF u1 u2 t (some 2) s).2.roomData
      = some ⟨s.supply s.nextId, [u1, u2], t, "active"⟩ ∧
    (createRoomF u1 u2 t (some 2) s).2.totalRooms = s.totalRooms := by
  unfold createRoomF
  simp only [Option.some.injEq, OfNat.ofNat_ne_zero, OfNat.ofNat_ne_one, if_false,
    reduceCtorEq, if_true, if_pos]
  refine ⟨?_, ?_, ?_, ?_⟩
  · simp
  · simp [lookup_setKey_self]
  · simp [lookup_setKey_self]
  · simp

/-- Claim C5 counterexample: an offer (or answer) whose roomId names no
existing room is not dropped silently: the server emits an error frame
with message Partner not found back to the sender. -/
theorem c5_counterexample :
    (handleOffer "u" (some "sdp") (some "r") (initState testSupply)).2
      = [Frame.errorF "u" "Partner not found"] ∧
    (handleAnswer "u" (some "sdp") (some "r") (initState testSupply)).2
      = [Frame.errorF "u" "Partner not found"] :=
  ⟨by decide, by decide⟩

/-- Claim C5 amended: when no peer is found for the sender, ice-candidate
relays are dropped silently and change no state, while offer and answer
relays change no state but emit exactly one error frame (Partner not
found) back to the sender. -/
theorem c5_amended_relay_peer_missing (s : ServerState) (u p r : String)
    (h : getOtherUser r u s = none) :
    handleOffer u (some p) (some r) s = (s, [Frame.errorF u "Partner not found"]) ∧
    handleAnswer u (some p) (some r) s = (s, [Frame.errorF u "Partner not found"]) ∧
    handleIceCandidate u (some p) (some r) s = (s, []) := by
  unfold handleOffer handleAnswer handleIceCandidate
  simp only [h]
  exact ⟨trivial, trivial, trivial⟩

/-- Claim C5 amended, witness at a concrete input. -/
theorem c5_witness :
    handleOffer "u" (some "sdp") (some "r") (initState testSupply)
      = (initState testSupply, [Frame.errorF "u" "Partner not found"]) :=
  (c5_amended_relay_peer_missing (initState testSupply) "u" "sdp" "r" (by decide)).1

/-- Claim C1 counterexample: in a room r with participants a and b, the
non-participant c is not reported as a non-participant: getOtherUser
returns participant a, and an offer, answer or ice-candidate sent by c
with roomId r is forwarded to participant a. -/
theorem c1_counterexample :
    getOtherUser "r" "c" roomState = some "a" ∧
    (handleOffer "c" (some "sdp") (some "r") roomState).2 = [Frame.offerF "a" "sdp" "r"] ∧
    (handleAnswer "c" (some "sdp") (some "r") roomState).2 = [Frame.answerF "a" "sdp" "r"] ∧
    (handleIceCandidate "c" (some "cand") (some "r") roomState).2
      = [Frame.iceF "a" "cand" "r"] :=
  ⟨by decide, by decide, by decide, by decide⟩

/-- Claim C1 amended: getOtherUser performs no membership check: it
returns the first user of the room payload that differs from the caller.
For any caller u different from the first participant a, participant or
not, it returns a, and an offer from u is forwarded to a. -/
theorem c1_amended_forward_to_first (s : ServerState) (r u a b p : String) (d : RoomData)
    (hd : List.lookup r s.roomData = some d) (hu : d.users = [a, b]) (hne : a ≠ u) :
    getOtherUser r u s = some a ∧
    handleOffer u (some p) (some r) s = (s, [Frame.offerF a p r]) := by
  have hb : (a != u) = true := bne_iff_ne.2 hne
  have hfind : getOtherUser r u s = some a := by
    unfold getOtherUser getRoom
    rw [hd]
    show List.find? (fun id => id != u) d.users = some a
    rw [hu]
    simp only [List.find?_cons, hb, cond_true]
  refine ⟨hfind, ?_⟩
  unfold handleOffer
  simp only [hfind]

/-- Claim C1 amended, witness at a concrete input. -/
theorem c1_witness :
    getOtherUser "r" "c" roomState = some "a" :=
  (c1_amended_forward_to_first roomState "r" "c" "a" "b" "p" ⟨"r", ["a", "b"], 0, "active"⟩
    (by decide) (by decide) (by decide)).1

/-- Claim C9 counterexample: addToQueue does not check its precondition:
called for a user already waiting it returns ok (true) rather than
AlreadyQueued and leaves two queue entries for that user, and called for
a user already in a room it returns ok (true) rather than AlreadyInRoom. -/
theorem c9_counterexample :
    (addToQueue "a" 2 (addToQueue "a" 1 (initState testSupply)).2).1 = true ∧
    ((addToQueue "a" 2 (addToQueue "a" 1 (initState testSupply)).2).2.queue.countP
      (fun e => e.userId == "a")) = 2 ∧
    (addToQueue "b" 3 roomState).1 = true :=
  ⟨by decide, by decide, by decide⟩

/-- Claim C9 amended: addToQueue itself checks nothing: for every state
it returns ok (true) and inserts an entry with the given timestamp; the
already-queued and already-in-room checks live in the caller
(handleFindPartner), not in the Enqueue operation. -/
theorem c9_amended_addToQueue_unchecked (u : String) (t : Nat) (s : ServerState) :
    (addToQueue u t s).1 = true ∧ (⟨u, t⟩ : QueueEntry) ∈ (addToQueue u t s).2.queue :=
  ⟨rfl, mem_zinsert_self _ _⟩

theorem not_in_queue_userId (u : String) (s : ServerState) (h : isInQueue u s = false) :
    ∀ x ∈ s.queue, x.userId ≠ u := by
  intro x hx hcon
  unfold isInQueue at h
  rw [List.any_eq_false] at h
  have h2 := h x hx
  rw [hcon] at h2
  simp at h2

theorem lookup_none_of_getRoomByUser_none (u : String) (s : ServerState)
    (hsound : ∀ u2 r, List.lookup u2 s.userRoom = some r →
      ∃ d, List.lookup r s.roomData = some d ∧ u2 ∈ d.users)
    (hg : getRoomByUser u s = none) : List.lookup u s.userRoom = none := by
  cases hl : List.lookup u s.userRoom with
  | none => rfl
  | some r =>
      rcases hsound u r hl with ⟨d, hd, _⟩
      have heq : getRoomByUser u s = getRoom r s := by
        unfold getRoomByUser
        rw [hl]
      rw [heq] at hg
      unfold getRoom at hg
      rw [hd] at hg
      cases hg

theorem fresh_room_none (s : ServerState) (h : Inv s) :
    List.lookup (s.supply s.nextId) s.roomData = none := by
  cases hl : List.lookup (s.supply s.nextId) s.roomData with
  | none => rfl
  | some d =>
      rcases h.rdFresh _ (by rw [hl]; rfl) with ⟨k, hk, hEq⟩
      have := h.supInj hEq
      omega

theorem countP_le_one_of_pairwise (l : List QueueEntry) (u : String)
    (h : l.Pairwise (fun a b => a.userId ≠ b.userId)) :
    l.countP (fun e => e.userId == u) ≤ 1 := by
  induction l with
  | nil => simp
  | cons e t ih =>
      rcases List.pairwise_cons.1 h with ⟨he, ht⟩
      by_cases hc : (e.userId == u) = true
      · have hz : t.countP (fun e => e.userId == u) = 0 := by
          refine List.countP_eq_zero.2 ?_
          intro x hx hxc
          have hne := he x hx
          rw [beq_iff_eq] at hc hxc
          exact hne (by rw [hc, hxc])
        simp [List.countP_cons, hc, hz]
      · simp only [List.countP_cons, hc, if_false, Bool.false_eq_true, Nat.add_zero]
        exact ih ht

theorem Inv_set_pending (s : ServerState) (p : List String) (h : Inv s) :
    Inv { s with pending := p } :=
  ⟨h.qPairwise, h.qNoRoom, h.urSound, h.rdSound, h.supInj, h.rdFresh⟩

theorem Inv_removeFromQueue (u : String) (s : ServerState) (h : Inv s) :
    Inv (removeFromQueue u s).2 := by
  unfold removeFromQueue
  cases hrem : removeFirstUser s.queue u with
  | none => exact h
  | some q2 =>
      have hsub := removeFirstUser_sublist s.queue u q2 hrem
      exact ⟨h.qPairwise.sublist hsub, fun e he => h.qNoRoom e (hsub.subset he),
        h.urSound, h.rdSound, h.supInj, h.rdFresh⟩

theorem Inv_closeRoom (r : String) (s : ServerState) (h : Inv s) :
    Inv (closeRoom r s).2 := by
  unfold closeRoom
  cases hg : getRoom r s with
  | none => exact h
  | some d =>
      have hd : List.lookup r s.roomData = some d := hg
      show Inv { s with
        userRoom := d.users.foldl (fun m u2 => delKey m u2) s.userRoom
        roomData := delKey s.roomData r
        activeRooms := s.activeRooms.filter (fun r2 => r2 != r) }
      refine ⟨h.qPairwise, ?_, ?_, ?_, h.supInj, ?_⟩
      · intro e he
        show List.lookup e.userId (d.users.foldl (fun m u2 => delKey m u2) s.userRoom) = none
        rw [lookup_foldl_delKey]
        by_cases hm : e.userId ∈ d.users
        · rw [if_pos hm]
        · rw [if_neg hm]
          exact h.qNoRoom e he
      · intro u2 r2 hl2
        have hl2b : List.lookup u2 (d.users.foldl (fun m u3 => delKey m u3) s.userRoom)
            = some r2 := hl2
        rw [lookup_foldl_delKey] at hl2b
        by_cases hm : u2 ∈ d.users
        · rw [if_pos hm] at hl2b
          cases hl2b
        · rw [if_neg hm] at hl2b
          rcases h.urSound u2 r2 hl2b with ⟨d2, hd2, hu2⟩
          have hr2 : r2 ≠ r := by
            intro hcon
            subst hcon
            rw [hd] at hd2
            exact hm (by rw [Option.some.inj hd2]; exact hu2)
          refine ⟨d2, ?_, hu2⟩
          show List.lookup r2 (delKey s.roomData r) = some d2
          rw [lookup_delKey_ne _ _ _ hr2]
          exact hd2
      · intro r2 d2 hd2 u2 hu2
        have hd2b : List.lookup r2 (delKey s.roomData r) = some d2 := hd2
        by_cases hr : r2 = r
        · subst hr
          rw [lookup_delKey_self] at hd2b
          cases hd2b
        · rw [lookup_delKey_ne _ _ _ hr] at hd2b
          have hold := h.rdSound r2 d2 hd2b u2 hu2
          show List.lookup u2 (d.users.foldl (fun m u3 => delKey m u3) s.userRoom) = some r2
          rw [lookup_foldl_delKey]
          have hm : u2 ∉ d.users := by
            intro hmem
            have hru := h.rdSound r d hd u2 hmem
            rw [hru] at hold
            exact hr (Option.some.inj hold).symm
          rw [if_neg hm]
          exact hold
      · intro r2 hr2
        have hr2b : (List.lookup r2 (delKey s.roomData r)).isSome := hr2
        by_cases hr : r2 = r
        · subst hr
          rw [lookup_delKey_self] at hr2b
          cases hr2b
        · rw [lookup_delKey_ne _ _ _ hr] at hr2b
          exact h.rdFresh r2 hr2b

theorem Inv_leaveChat (u : String) (s : ServerState) (h : Inv s) :
    Inv (handleLeaveChat u s).1 := by
  unfold handleLeaveChat
  cases hg : getRoomByUser u s with
  | none =>
      show Inv (removeFromQueue u s).2
      exact Inv_removeFromQueue u s h
  | some room =>
      show Inv (removeFromQueue u (closeRoom room.roomId s).2).2
      exact Inv_removeFromQueue _ _ (Inv_closeRoom _ _ h)

theorem Inv_disconnect (u : String) (s : ServerState) (h : Inv s) :
    Inv (handleDisconnect u s).1 := by
  unfold handleDisconnect
  cases hg : getRoomByUser u s with
  | none =>
      show Inv (removeFromQueue u s).2
      exact Inv_removeFromQueue u s h
  | some room =>
      show Inv (removeFromQueue u (closeRoom room.roomId s).2).2
      exact Inv_removeFromQueue _ _ (Inv_closeRoom _ _ h)

theorem Inv_findPartner (u : String) (t : Nat) (s : ServerState) (h : Inv s) :
    Inv (handleFindPartner u t s).1 := by
  cases hg : getRoomByUser u s with
  | some room =>
      unfold handleFindPartner
      rw [hg]
      exact h
  | none =>
      have hur : List.lookup u s.userRoom = none :=
        lookup_none_of_getRoomByUser_none u s h.urSound hg
      cases hiq : isInQueue u s with
      | true =>
          unfold handleFindPartner
          rw [hg, hiq]
          exact h
      | false =>
          have hqne : ∀ x ∈ s.queue, x.userId ≠ u := not_in_queue_userId u s hiq
          cases hqc : s.queue with
          | nil =>
              rw [findPartner_enqueues s u t hur hqc]
              refine ⟨?_, ?_, h.urSound, h.rdSound, h.supInj, h.rdFresh⟩
              · show List.Pairwise _ [(⟨u, t⟩ : QueueEntry)]
                exact List.pairwise_singleton _ _
              · intro e he
                have he2 : e = ⟨u, t⟩ := List.mem_singleton.1 he
                subst he2
                exact hur
          | cons e rest =>
              have hni : s.queue.any (fun x => x.userId == u) = false := hiq
              rw [findPartner_pairs_explicit s u t e rest hqc hur hni]
              have hpw : (e :: rest).Pairwise (fun a b => a.userId ≠ b.userId) := by
                rw [← hqc]; exact h.qPairwise
              have hwu : e.userId ≠ u := hqne e (by rw [hqc]; exact List.mem_cons_self _ _)
              have hwur : List.lookup e.userId s.userRoom = none :=
                h.qNoRoom e (by rw [hqc]; exact List.mem_cons_self _ _)
              have hfreshR : List.lookup (s.supply s.nextId) s.roomData = none :=
                fresh_room_none s h
              refine ⟨?_, ?_, ?_, ?_, h.supInj, ?_⟩
              · exact (List.pairwise_cons.1 hpw).2
              · intro x hx
                have hxw : x.userId ≠ e.userId :=
                  Ne.symm ((List.pairwise_cons.1 hpw).1 x hx)
                have hxu : x.userId ≠ u :=
                  hqne x (by rw [hqc]; exact List.mem_cons.2 (Or.inr hx))
                show List.lookup x.userId
                  (setKey (setKey s.userRoom u (s.supply s.nextId)) e.userId
                    (s.supply s.nextId)) = none
                rw [lookup_setKey_ne _ _ _ _ hxw, lookup_setKey_ne _ _ _ _ hxu]
                exact h.qNoRoom x (by rw [hqc]; exact List.mem_cons.2 (Or.inr hx))
              · intro u2 r2 hl2
                have hl2b : List.lookup u2
                    (setKey (setKey s.userRoom u (s.supply s.nextId)) e.userId
                      (s.supply s.nextId)) = some r2 := hl2
                by_cases hu2w : u2 = e.userId
                · rw [hu2w, lookup_setKey_self] at hl2b
                  refine ⟨⟨s.supply s.nextId, [u, e.userId], t, "active"⟩, ?_, ?_⟩
                  · show List.lookup r2 (setKey s.roomData (s.supply s.nextId)
                      ⟨s.supply s.nextId, [u, e.userId], t, "active"⟩) = _
                    rw [← Option.some.inj hl2b]
                    rw [lookup_setKey_self]
                  · simp [hu2w]
                · rw [lookup_setKey_ne _ _ _ _ hu2w] at hl2b
                  by_cases hu2u : u2 = u
                  · rw [hu2u, lookup_setKey_self] at hl2b
                    refine ⟨⟨s.supply s.nextId, [u, e.userId], t, "active"⟩, ?_, ?_⟩
                    · show List.lookup r2 (setKey s.roomData (s.supply s.nextId)
                        ⟨s.supply s.nextId, [u, e.userId], t, "active"⟩) = _
                      rw [← Option.some.inj hl2b]
                      rw [lookup_setKey_self]
                    · simp [hu2u]
                  · rw [lookup_setKey_ne _ _ _ _ hu2u] at hl2b
                    rcases h.urSound u2 r2 hl2b with ⟨d2, hd2, hu2d⟩
                    have hr2 : r2 ≠ s.supply s.nextId := by
                      intro hcon
                      rw [hcon, hfreshR] at hd2
                      cases hd2
                    refine ⟨d2, ?_, hu2d⟩
                    show List.lookup r2 (setKey s.roomData (s.supply s.nextId) _) = some d2
                    rw [lookup_setKey_ne _ _ _ _ hr2]
                    exact hd2
              · intro r2 d2 hd2 u2 hu2
                have hd2b : List.lookup r2 (setKey s.roomData (s.supply s.nextId)
                    ⟨s.supply s.nextId, [u, e.userId], t, "active"⟩) = some d2 := hd2
                by_cases hr : r2 = s.supply s.nextId
                · subst hr
                  rw [lookup_setKey_self] at hd2b
                  have hd2c : d2 = ⟨s.supply s.nextId, [u, e.userId], t, "active"⟩ :=
                    (Option.some.inj hd2b).symm
                  subst hd2c
                  simp only [List.mem_cons, List.mem_singleton] at hu2
                  show List.lookup u2 (setKey (setKey s.userRoom u (s.supply s.nextId))
                    e.userId (s.supply s.nextId)) = some (s.supply s.nextId)
                  rcases hu2 with rfl | rfl | hfalse
                  · rw [lookup_setKey_ne _ _ _ _ (Ne.symm hwu), lookup_setKey_self]
                  · rw [lookup_setKey_self]
                  · cases hfalse
                · rw [lookup_setKey_ne _ _ _ _ hr] at hd2b
                  have hold := h.rdSound r2 d2 hd2b u2 hu2
                  have hu2u : u2 ≠ u := by
                    intro hcon
                    rw [hcon, hur] at hold
                    cases hold
                  have hu2w : u2 ≠ e.userId := by
                    intro hcon
                    rw [hcon, hwur] at hold
                    cases hold
                  show List.lookup u2 (setKey (setKey s.userRoom u (s.supply s.nextId))
                    e.userId (s.supply s.nextId)) = some r2
                  rw [lookup_setKey_ne _ _ _ _ hu2w, lookup_setKey_ne _ _ _ _ hu2u]
                  exact hold
              · intro r2 hr2
                have hr2b : (List.lookup r2 (setKey s.roomData (s.supply s.nextId)
                    ⟨s.supply s.nextId, [u, e.userId], t, "active"⟩)).isSome := hr2
                show ∃ k, k < s.nextId + 1 ∧ r2 = s.supply k
                by_cases hr : r2 = s.supply s.nextId
                · exact ⟨s.nextId, by omega, hr⟩
                · rw [lookup_setKey_ne _ _ _ _ hr] at hr2b
                  rcases h.rdFresh r2 hr2b with ⟨k, hk, hEq⟩
                  exact ⟨k, by omega, hEq⟩

theorem Inv_stepE (ev : Event) (s : ServerState) (h : Inv s) : Inv (stepE ev s).1 := by
  cases ev with
  | findPartner u t => exact Inv_findPartner u t s h
  | leaveChat u => exact Inv_leaveChat u s h
  | disconnect u => exact Inv_disconnect u s h
  | skipPartner u => exact Inv_set_pending _ _ (Inv_leaveChat u s h)
  | fireSkipTimer u t =>
      by_cases hp : u ∈ s.pending
      · show Inv (if u ∈ s.pending then
            handleFindPartner u t { s with pending := s.pending.erase u } else (s, [])).1
        rw [if_pos hp]
        exact Inv_findPartner u t _ (Inv_set_pending _ _ h)
      · show Inv (if u ∈ s.pending then
            handleFindPartner u t { s with pending := s.pending.erase u } else (s, [])).1
        rw [if_neg hp]
        exact h

theorem Inv_runE (es : List Event) (s : ServerState) (h : Inv s) : Inv (runE es s).1 := by
  rw [runE_state]
  induction es generalizing s with
  | nil => exact h
  | cons e t ih =>
      simp only [List.foldl_cons]
      exact ih _ (Inv_stepE e s h)

theorem Inv_initState (sup : Nat → String) (hsup : Function.Injective sup) :
    Inv (initState sup) := by
  refine ⟨?_, ?_, ?_, ?_, hsup, ?_⟩
  · exact List.Pairwise.nil
  · intro e he
    cases he
  · intro u r hl
    cases hl
  · intro r d hd
    cases hd
  · intro r hr
    cases hr

/-- Claim C2: after any sequence of find-partner, leave-chat,
skip-partner, disconnect and skip-timer events from a fresh server, any
client has at most one queue entry and is in exactly one of the three
conditions queued (a queue:waiting entry), paired (a user:room mapping)
or idle (neither): never a queue entry and a room mapping at once. -/
theorem c2_exactly_one_state (sup : Nat → String) (hsup : Function.Injective sup)
    (es : List Event) (u : String) :
    ((runE es (initState sup)).1.queue.countP (fun e => e.userId == u)) ≤ 1 ∧
    ((queuedB u (runE es (initState sup)).1 = true ∧
        pairedB u (runE es (initState sup)).1 = false ∧
        idleB u (runE es (initState sup)).1 = false) ∨
     (pairedB u (runE es (initState sup)).1 = true ∧
        queuedB u (runE es (initState sup)).1 = false ∧
        idleB u (runE es (initState sup)).1 = false) ∨
     (idleB u (runE es (initState sup)).1 = true ∧
        queuedB u (runE es (initState sup)).1 = false ∧
        pairedB u (runE es (initState sup)).1 = false)) := by
  have hInv := Inv_runE es (initState sup) (Inv_initState sup hsup)
  constructor
  · exact countP_le_one_of_pairwise _ u hInv.qPairwise
  · have hnb : ¬(queuedB u (runE es (initState sup)).1 = true ∧
        pairedB u (runE es (initState sup)).1 = true) := by
      rintro ⟨hq, hpp⟩
      unfold queuedB isInQueue at hq
      rw [List.any_eq_true] at hq
      rcases hq with ⟨x, hx, hxu⟩
      have hnr := hInv.qNoRoom x hx
      rw [beq_iff_eq] at hxu
      rw [hxu] at hnr
      unfold pairedB at hpp
      rw [hnr] at hpp
      cases hpp
    cases hq : queuedB u (runE es (initState sup)).1 with
    | true =>
        cases hpp : pairedB u (runE es (initState sup)).1 with
        | true => exact absurd ⟨hq, hpp⟩ hnb
        | false =>
            left
            exact ⟨rfl, rfl, by simp [idleB, hq, hpp]⟩
    | false =>
        cases hpp : pairedB u (runE es (initState sup)).1 with
        | true =>
            right; left
            exact ⟨rfl, rfl, by simp [idleB, hq, hpp]⟩
        | false =>
            right; right
            exact ⟨by simp [idleB, hq, hpp], rfl, rfl⟩

/-- Claim C2, witness at a concrete input. -/
theorem c2_witness :
    ((runE [.findPartner "a" 0] (initState testSupply)).1.queue.countP
      (fun e => e.userId == "a")) ≤ 1 ∧
    ((queuedB "a" (runE [.findPartner "a" 0] (initState testSupply)).1 = true ∧
        pairedB "a" (runE [.findPartner "a" 0] (initState testSupply)).1 = false ∧
        idleB "a" (runE [.findPartner "a" 0] (initState testSupply)).1 = false) ∨
     (pairedB "a" (runE [.findPartner "a" 0] (initState testSupply)).1 = true ∧
        queuedB "a" (runE [.findPartner "a" 0] (initState testSupply)).1 = false ∧
        idleB "a" (runE [.findPartner "a" 0] (initState testSupply)).1 = false) ∨
     (idleB "a" (runE [.findPartner "a" 0] (initState testSupply)).1 = true ∧
        queuedB "a" (runE [.findPartner "a" 0] (initState testSupply)).1 = false ∧
        pairedB "a" (runE [.findPartner "a" 0] (initState testSupply)).1 = false)) :=
  c2_exactly_one_state testSupply testSupply_injective [.findPartner "a" 0] "a"

end StrangerTalk
